import Mathlib

/-!
Verification of the active-resource resolver and message bridge of the
ThorVG viewer VSCode extension (`src/webview/ThorVGViewerPanel.ts` and the
webview bridge script `vscode-bridge.js`).

The embedding models host URIs as their canonical strings (`uri.toString()`
and `uri.fsPath` coincide in the model), documents as (uri, text) pairs,
and the host editor surface (active editor, active tab input, tab groups,
file system reads, document opens) as a read-only record of functions.
Each stateful method of `ThorVGViewerPanel` becomes a function from host
and panel state to a `StepResult` carrying the post-state, the list of
`loadFile` messages posted to the webview, the user-facing notices shown,
and whether a host read threw (an uncaught rejection in the extension).
-/

namespace ThorVG

/-- A resource handle, identified by its canonical string form
(`vscode.Uri`; equality in the source is `a.toString() === b.toString()`). -/
abbrev Uri := String

/-- A text document of the host editor: its URI and its in-memory text
(`document.getText()`). In the source `document.fileName` is the file
system path of the URI; in the model both are the same string. -/
structure Document where
  uri : Uri
  text : String
deriving DecidableEq

/-- The input object of an editor tab. The source probes four optional
fields in order (`uri`, `modified`, `original`, `notebookUri`); a field
holding `undefined` is falsy, modelled by `none`. -/
structure TabInput where
  uri : Option Uri
  modified : Option Uri
  original : Option Uri
  notebookUri : Option Uri
deriving DecidableEq

/-- The last path component of `p`, splitting on both separators: models
the source's `fileName.split(/[\\/]/).pop()` and `path.basename`. -/
def lastPathComponent (p : String) : String :=
  String.mk (p.toList.foldl (fun acc c => if c = '/' ∨ c = '\\' then [] else acc ++ [c]) [])

/-- Splitting a character list at every occurrence of a separator, as
JavaScript `string.split(sep)` does for a one-character separator. -/
def splitOnSep (sep : Char) (cs : List Char) : List (List Char) :=
  match cs with
  | [] => [[]]
  | c :: rest =>
    let parts := splitOnSep sep rest
    if c = sep then [] :: parts
    else
      match parts with
      | [] => [[c]]
      | p :: ps => (c :: p) :: ps

/-- The extension as the source computes it: `fileName.split('.').pop()?.toLowerCase()`.
On a name with no dot, JavaScript `pop` returns the whole name. -/
def extOf (fileName : String) : Option String :=
  (splitOnSep '.' fileName.toList).getLast?.map (fun cs => String.mk (cs.map Char.toLower))

/-- `_isSupportedPath`: the lower-cased path ends in one of the four
supported extensions. -/
def isSupportedPath (filePath : String) : Bool :=
  let lowerPath := filePath.toList.map Char.toLower
  ".svg".toList.isSuffixOf lowerPath || ".json".toList.isSuffixOf lowerPath ||
    ".lot".toList.isSuffixOf lowerPath || ".png".toList.isSuffixOf lowerPath

/-- `_isSupportedFile`: delegates to `_isSupportedPath` on `document.fileName`
(the document's path in the model). -/
def isSupportedFile (document : Document) : Bool :=
  isSupportedPath document.uri

/-- `_urisEqual`: canonical-string comparison of two handles. -/
def urisEqual (a b : Uri) : Bool := a == b

/-- The read-only host editor surface consumed by one resolver invocation:
active editor, active tab's input (`tabGroups.activeTabGroup?.activeTab?.input`),
all tab inputs in group order then tab order, and the fallible host I/O
(`workspace.fs.readFile`, returning bytes, and `workspace.openTextDocument`),
where `none` models a thrown host error. -/
structure Host where
  activeTextEditor : Option Document
  activeTabInput : Option TabInput
  tabGroups : List (List (Option TabInput))
  readFile : Uri → Option (List Nat)
  openTextDocument : Uri → Option Document

/-- The mutable per-panel state touched by the resolver:
`_autoSyncEnabled`, `_currentDocument` and `_currentResourceUri`
(the spec's DisplayedResource). -/
structure PanelState where
  autoSyncEnabled : Bool
  currentDocument : Option Document
  currentResourceUri : Option Uri
deriving DecidableEq

/-- A message posted to the webview: `{command:'loadFile', fileName, fileData}`. -/
structure LoadMsg where
  fileName : String
  fileData : String
deriving DecidableEq

/-- The observable outcome of one panel method invocation: the post-state,
the `loadFile` dispatches posted (in order), the user-facing warning
notices shown, and whether a host read threw with no catch in scope
(`readFailed`), in which case execution stopped at the throw point. -/
structure StepResult where
  state : PanelState
  dispatches : List LoadMsg
  notices : List String
  readFailed : Bool
deriving DecidableEq

/-- A result that changes nothing and emits nothing. -/
def noopResult (s : PanelState) : StepResult :=
  { state := s, dispatches := [], notices := [], readFailed := false }

/-! ## Base64 and data URLs

The extension encodes binary file bytes with Node's
`Buffer.from(fileData).toString('base64')` (standard Base64 with `=`
padding) and the bridge decodes with the browser's `atob` followed by
`charCodeAt` per character. Both are platform primitives, modelled here
by the standard Base64 codec over byte lists. -/

/-- The 64-character Base64 alphabet. -/
def b64Alphabet : List Char :=
  "ABCDEFGHIJKLMNOPQRSTUVWXYZabcdefghijklmnopqrstuvwxyz0123456789+/".toList

/-- The alphabet character for a sextet. -/
def b64Char (n : Nat) : Char := b64Alphabet.getD n 'A'

/-- The sextet value of an alphabet character (as `atob` reads it). -/
def b64Value (c : Char) : Nat := b64Alphabet.indexOf c

/-- Standard Base64 encoding of a byte list, as produced by
`Buffer.toString('base64')`: three bytes become four alphabet characters;
a final one- or two-byte group is padded with `=`. -/
def b64EncodeBytes : List Nat → List Char
  | [] => []
  | [b0] =>
      [b64Char (b0 / 4), b64Char (b0 % 4 * 16), '=', '=']
  | [b0, b1] =>
      [b64Char (b0 / 4), b64Char (b0 % 4 * 16 + b1 / 16), b64Char (b1 % 16 * 4), '=']
  | b0 :: b1 :: b2 :: rest =>
      b64Char (b0 / 4) :: b64Char (b0 % 4 * 16 + b1 / 16) ::
        b64Char (b1 % 16 * 4 + b2 / 64) :: b64Char (b2 % 64) :: b64EncodeBytes rest

/-- Base64 decoding to bytes, as the bridge performs it: `atob` on the
payload followed by `charCodeAt(i)` on each character of the result
(`dataUrlToBlob` in `vscode-bridge.js`). Groups of four characters yield
three bytes; `=` padding marks a short final group. -/
def atobBytes : List Char → List Nat
  | c0 :: c1 :: c2 :: c3 :: rest =>
      if c2 = '=' then
        [b64Value c0 * 4 + b64Value c1 / 16]
      else if c3 = '=' then
        [b64Value c0 * 4 + b64Value c1 / 16, b64Value c1 % 16 * 16 + b64Value c2 / 4]
      else
        (b64Value c0 * 4 + b64Value c1 / 16) ::
          (b64Value c1 % 16 * 16 + b64Value c2 / 4) ::
          (b64Value c2 % 4 * 64 + b64Value c3) :: atobBytes rest
  | _ => []

/-- Splitting a character list at every comma, as the bridge's
`dataUrl.split(',')` does. -/
def splitComma (cs : List Char) : List (List Char) := splitOnSep ',' cs

/-- `dataUrlToBlob` of the bridge, restricted to the bytes it produces:
split the data URL at commas, take `parts[1] || ''` as the payload, and
decode it with `atob`/`charCodeAt`. (The MIME match on `parts[0]` only
selects the blob's content type and does not affect the bytes.) -/
def dataUrlToBlob (dataUrl : List Char) : List Nat :=
  let parts := splitComma dataUrl
  let base64 := parts.getD 1 []
  atobBytes base64

/-- The data URL the extension builds for a PNG read from storage:
`data:image/png;base64,` followed by the Base64 payload. -/
def pngDataUrlChars (fileData : List Nat) : List Char :=
  "data:image/png;base64,".toList ++ b64EncodeBytes fileData

/-- The PNG data URL as a string (the `fileContent` sent to the webview). -/
def pngDataUrl (fileData : List Nat) : String :=
  String.mk (pngDataUrlChars fileData)

/-- The fallback data URL for other binary formats:
`data:application/octet-stream;base64,` followed by the payload. -/
def octetDataUrl (fileData : List Nat) : String :=
  String.mk ("data:application/octet-stream;base64,".toList ++ b64EncodeBytes fileData)

/-! ## Resolver steps

Each private method of `ThorVGViewerPanel` that the resolver uses becomes
a function of the host surface and the panel state. State mutations are
threaded in source order, so that where the source assigns
`_currentResourceUri` before a fallible read, the model's failed result
carries the already-mutated state. -/

/-- `_getUriFromTabInput`: probe the four optional fields of a tab input
in order (`uri`, `modified`, `original`, `notebookUri`) and return the
first one present; `none` when the input is absent or all four are unset. -/
def getUriFromTabInput (input : Option TabInput) : Option Uri :=
  match input with
  | none => none
  | some t =>
    match t.uri with
    | some u => some u
    | none =>
      match t.modified with
      | some u => some u
      | none =>
        match t.original with
        | some u => some u
        | none =>
          match t.notebookUri with
          | some u => some u
          | none => none

/-- The inner loop of `_getActiveResourceUri`'s fallback: first tab in the
group whose input resolves to a supported URI. -/
def scanTabs : List (Option TabInput) → Option Uri
  | [] => none
  | t :: rest =>
    match getUriFromTabInput t with
    | some u => if isSupportedPath u then some u else scanTabs rest
    | none => scanTabs rest

/-- The outer loop of `_getActiveResourceUri`'s fallback: groups in order,
tabs within each group in order. -/
def scanGroups : List (List (Option TabInput)) → Option Uri
  | [] => none
  | g :: rest =>
    match scanTabs g with
    | some u => some u
    | none => scanGroups rest

/-- `_getActiveResourceUri`: the focused editor's document URI if
supported; else the active tab's resolved input URI if supported; else
the first supported URI found scanning all tabs in group order then tab
order; else `none`. -/
def getActiveResourceUri (host : Host) : Option Uri :=
  let fromTab :=
    match getUriFromTabInput host.activeTabInput with
    | some u => if isSupportedPath u then some u else scanGroups host.tabGroups
    | none => scanGroups host.tabGroups
  match host.activeTextEditor with
  | some ed => if isSupportedPath ed.uri then some ed.uri else fromTab
  | none => fromTab

/-- `_loadDocument`: set `_currentDocument` and `_currentResourceUri` to
the document first; then build the content — the in-memory text for the
textual extensions, a data URL from a storage read for `png` and any other
extension — and post the `loadFile` message. A failed storage read throws
after the state was already updated, so the failed result carries the
mutated state. -/
def loadDocumentStep (host : Host) (s : PanelState) (doc : Document) : StepResult :=
  let s1 : PanelState :=
    { s with currentDocument := some doc, currentResourceUri := some doc.uri }
  let fn := lastPathComponent doc.uri
  let fileName := if fn = "" then "unknown" else fn
  let ext := extOf fileName
  if ext = some "json" ∨ ext = some "lot" ∨ ext = some "svg" then
    { state := s1, dispatches := [⟨fileName, doc.text⟩], notices := [], readFailed := false }
  else
    match host.readFile doc.uri with
    | none => { state := s1, dispatches := [], notices := [], readFailed := true }
    | some fileData =>
      let fileContent := if ext = some "png" then pngDataUrl fileData else octetDataUrl fileData
      { state := s1, dispatches := [⟨fileName, fileContent⟩], notices := [], readFailed := false }

/-- `_loadUri`: textual extensions open the document through the host and
defer to `_loadDocument`; binary extensions read from storage (a failure
here throws before any state change), then set `_currentDocument` to
`undefined` and `_currentResourceUri` to the URI, then post the message. -/
def loadUriStep (host : Host) (s : PanelState) (uri : Uri) : StepResult :=
  let fileName := lastPathComponent uri
  let ext := extOf fileName
  if ext = some "json" ∨ ext = some "lot" ∨ ext = some "svg" then
    match host.openTextDocument uri with
    | none => { state := s, dispatches := [], notices := [], readFailed := true }
    | some document => loadDocumentStep host s document
  else
    match host.readFile uri with
    | none => { state := s, dispatches := [], notices := [], readFailed := true }
    | some fileData =>
      let fileContent := if ext = some "png" then pngDataUrl fileData else octetDataUrl fileData
      let s1 : PanelState := { s with currentDocument := none, currentResourceUri := some uri }
      { state := s1, dispatches := [⟨fileName, fileContent⟩], notices := [], readFailed := false }

/-- The warning shown when no active file is found. -/
def noActiveFileNotice : String :=
  "No active file found. Please open a file (.svg, .json, .lot, .png)"

/-- The warning shown when the selected file has an unsupported format. -/
def unsupportedSelectionNotice : String :=
  "Selected file is not a supported format (.svg, .json, .lot, .png)"

/-- The warning shown when the current file has an unsupported format. -/
def unsupportedCurrentNotice : String :=
  "Current file is not a supported format (.svg, .json, .lot, .png)"

/-- `_loadCurrentFile`: resolve the target (the explicit URI, else
`_getActiveResourceUri`), warn (unless silent) and stop when it is absent
or unsupported, load via `_loadDocument` when the target is the active
editor's document, else via `_loadUri`. -/
def loadCurrentFileStep (host : Host) (s : PanelState) (resourceUri : Option Uri)
    (silentIfMissing : Bool) : StepResult :=
  let targetUri :=
    match resourceUri with
    | some u => some u
    | none => getActiveResourceUri host
  match targetUri with
  | none =>
    { state := s, dispatches := [],
      notices := if silentIfMissing then [] else [noActiveFileNotice], readFailed := false }
  | some target =>
    if ¬ isSupportedPath target then
      { state := s, dispatches := [],
        notices := if silentIfMissing then [] else [unsupportedSelectionNotice],
        readFailed := false }
    else
      match host.activeTextEditor with
      | some activeDoc =>
        if urisEqual activeDoc.uri target then
          if ¬ isSupportedFile activeDoc then
            { state := s, dispatches := [],
              notices := if silentIfMissing then [] else [unsupportedCurrentNotice],
              readFailed := false }
          else loadDocumentStep host s activeDoc
        else loadUriStep host s target
      | none => loadUriStep host s target

/-- The second half of `_syncActiveResourceIfSupported`: if the active
tab resolves to a supported URI, reload it unless it is already the
displayed resource; otherwise keep the current file displayed (the
source's trailing comment: do not switch to another file). -/
def syncTabBranch (host : Host) (s : PanelState) : StepResult :=
  match getUriFromTabInput host.activeTabInput with
  | some u =>
    if isSupportedPath u then
      if s.currentResourceUri = some u then noopResult s
      else loadCurrentFileStep host s (some u) true
    else noopResult s
  | none => noopResult s

/-- `_syncActiveResourceIfSupported`: if the active editor's document is
supported, reload it unless it is already the displayed resource;
otherwise fall through to the active-tab check. -/
def syncStep (host : Host) (s : PanelState) : StepResult :=
  match host.activeTextEditor with
  | some ed =>
    if isSupportedPath ed.uri then
      if s.currentResourceUri = some ed.uri then noopResult s
      else loadCurrentFileStep host s (some ed.uri) true
    else syncTabBranch host s
  | none => syncTabBranch host s

/-- A host focus or document event observed by the `_setupAutoSync`
listeners. `editorChange` carries the new active editor the host passes
to the callback; the other listeners receive no payload. -/
inductive FocusEvent where
  | docChange (doc : Document)
  | editorChange (editor : Option Document)
  | tabChange
  | tabGroupChange
deriving DecidableEq

/-- The `_setupAutoSync` listener bodies. Each first tests
`_autoSyncEnabled`; the document-change listener reloads only the tracked
current document; the editor-change listener loads a supported editor
document directly and otherwise falls back to the passive sync; the tab
and tab-group listeners run the passive sync. -/
def handleEvent (host : Host) (s : PanelState) : FocusEvent → StepResult
  | .docChange doc =>
    if s.autoSyncEnabled ∧ s.currentDocument = some doc then
      loadDocumentStep host s doc
    else noopResult s
  | .editorChange editor =>
    if s.autoSyncEnabled then
      match editor with
      | some ed =>
        if isSupportedFile ed then loadDocumentStep host s ed
        else syncStep host s
      | none => syncStep host s
    else noopResult s
  | .tabChange => if s.autoSyncEnabled then syncStep host s else noopResult s
  | .tabGroupChange => if s.autoSyncEnabled then syncStep host s else noopResult s

/-- Run a sequence of events, each observing its own host surface,
accumulating the dispatched `loadFile` messages. -/
def runEvents : List (Host × FocusEvent) → PanelState → PanelState × List LoadMsg
  | [], s => (s, [])
  | (h, e) :: rest, s =>
    let r := handleEvent h s e
    let (sEnd, ms) := runEvents rest r.state
    (sEnd, r.dispatches ++ ms)

/-- The panel constructor's state initialization: `_autoSyncEnabled` is
set from the `autoSync` parameter, whose declared default is `true`;
`_currentDocument` and `_currentResourceUri` start unset. -/
def panelCtor (autoSync : Bool := true) : PanelState :=
  { autoSyncEnabled := autoSync, currentDocument := none, currentResourceUri := none }

/-- The state of the panel built by `createOrShow`, which omits the
`autoSync` argument. -/
def createOrShowPanel : PanelState := panelCtor

/-- The state of the panel built by `createOrShowWithCurrentFile`, which
passes `autoSync = true` explicitly. -/
def createOrShowWithCurrentFilePanel : PanelState := panelCtor true

/-! ## Export default destination -/

/-- The directory of a path (`path.dirname` on the document's file system
path): everything before the last separator; `.` when there is none and
`/` for a file directly under the root. -/
def dirname (p : String) : String :=
  match p.toList.reverse.dropWhile (fun c => ¬ (c = '/' ∨ c = '\\')) with
  | [] => "."
  | [c] => String.mk [c]
  | _ :: rest => String.mk rest.reverse

/-- Join a base folder URI and a file name (`vscode.Uri.joinPath`). -/
def joinPath (base name : String) : String := base ++ "/" ++ name

/-- The default save location computed by the `exportFile` handler:
`message.fileName || export.<fileType>` (a missing or empty viewer name
falls back to the default, by JavaScript truthiness); the base folder is
the directory of `_currentDocument` when set, else the first workspace
folder; with no base folder the bare file name is used. -/
def exportDefaultUri (currentDocument : Option Document) (workspaceFolders : List Uri)
    (fileType : String) (fileName : Option String) : Uri :=
  let defaultFileName :=
    match fileName with
    | some n => if n = "" then "export." ++ fileType else n
    | none => "export." ++ fileType
  let baseFolderUri : Option Uri :=
    match currentDocument with
    | some doc => some (dirname doc.uri)
    | none => workspaceFolders.head?
  match baseFolderUri with
  | some base => joinPath base defaultFileName
  | none => defaultFileName

/-- The claim's reading of the default destination, written from the
spec's words: the destination directory is the directory of the currently
open source document when one exists, else the first workspace folder's
root, else the bare default file name. -/
def exportDefaultUriOfSpec (currentDocument : Option Document) (workspaceFolders : List Uri)
    (fileType : String) (fileName : Option String) : Uri :=
  let name :=
    match fileName with
    | some n => if n = "" then "export." ++ fileType else n
    | none => "export." ++ fileType
  match currentDocument with
  | some doc => joinPath (dirname doc.uri) name
  | none =>
    match workspaceFolders with
    | w :: _ => joinPath w name
    | [] => name

/-! ## Webview readiness gate

The panel holds a promise `_webviewReady` whose resolver is stored in
`_webviewReadyResolver`. Every dispatch path awaits the promise in
`_ensureWebviewReady` before posting; the `ready` message from the
webview resolves the promise and clears the resolver, so a second `ready`
is a no-op. The model makes the promise a one-shot gate: a dispatch
issued before resolution is suspended (`pending`); resolution releases
all suspended dispatches in order; a dispatch issued after resolution
posts immediately. -/

structure GateState where
  ready : Bool
  resolverPresent : Bool
  pending : List LoadMsg
  delivered : List LoadMsg
deriving DecidableEq

/-- The gate as the constructor builds it: a fresh unresolved promise
with its resolver stored. -/
def initialGate : GateState :=
  { ready := false, resolverPresent := true, pending := [], delivered := [] }

/-- A dispatch path reaching `_ensureWebviewReady` with message `m`:
posted immediately when the promise is resolved, suspended otherwise. -/
def gateDispatch (g : GateState) (m : LoadMsg) : GateState :=
  if g.ready then { g with delivered := g.delivered ++ [m] }
  else { g with pending := g.pending ++ [m] }

/-- The `ready` message handler: when the resolver is still present,
resolve the promise (releasing every suspended dispatch, in order) and
clear the resolver; otherwise do nothing. -/
def gateReadyMsg (g : GateState) : GateState :=
  if g.resolverPresent then
    { ready := true, resolverPresent := false, pending := [],
      delivered := g.delivered ++ g.pending }
  else g

/-! ## Base64 round-trip lemmas -/

/-- Decoding an alphabet character recovers its sextet. -/
theorem b64Value_b64Char : ∀ n, n < 64 → b64Value (b64Char n) = n := by decide

/-- An alphabet character is never the padding character. -/
theorem b64Char_ne_pad : ∀ n, n < 64 → b64Char n ≠ '=' := by decide

/-- No output of `b64Char` is a comma (in range it is an alphabet
character; out of range it is the default `A`). -/
theorem b64Char_ne_comma (k : Nat) : b64Char k ≠ ',' := by
  rcases Nat.lt_or_ge k 64 with h | h
  · exact (by decide : ∀ n, n < 64 → b64Char n ≠ ',') k h
  · unfold b64Char
    rw [List.getD_eq_default]
    · decide
    · have hlen : b64Alphabet.length = 64 := by decide
      omega

/-- The Base64 payload the extension produces contains no comma, so the
bridge's split at commas leaves it intact. -/
theorem comma_not_mem_encode (l : List Nat) : ',' ∉ b64EncodeBytes l := by
  induction l using b64EncodeBytes.induct with
  | case1 => simp [b64EncodeBytes]
  | case2 b0 =>
    intro h
    simp [b64EncodeBytes] at h
    rcases h with h | h
    · exact b64Char_ne_comma _ h.symm
    · exact b64Char_ne_comma _ h.symm
  | case3 b0 b1 =>
    intro h
    simp [b64EncodeBytes] at h
    rcases h with h | h | h
    · exact b64Char_ne_comma _ h.symm
    · exact b64Char_ne_comma _ h.symm
    · exact b64Char_ne_comma _ h.symm
  | case4 b0 b1 b2 rest ih =>
    intro h
    simp [b64EncodeBytes] at h
    rcases h with h | h | h | h | h
    · exact b64Char_ne_comma _ h.symm
    · exact b64Char_ne_comma _ h.symm
    · exact b64Char_ne_comma _ h.symm
    · exact b64Char_ne_comma _ h.symm
    · exact ih h

/-- The bridge's `atob`-and-`charCodeAt` decoding inverts the
extension's Base64 encoding on byte lists. -/
theorem atobBytes_encode (l : List Nat) (hb : ∀ b ∈ l, b < 256) :
    atobBytes (b64EncodeBytes l) = l := by
  induction l using b64EncodeBytes.induct with
  | case1 => rfl
  | case2 b0 =>
    have h0 : b0 < 256 := hb b0 (by simp)
    have e0 := b64Value_b64Char (b0 / 4) (by omega)
    have e1 := b64Value_b64Char (b0 % 4 * 16) (by omega)
    simp [b64EncodeBytes, atobBytes, e0, e1]
    omega
  | case3 b0 b1 =>
    have h0 : b0 < 256 := hb b0 (by simp)
    have h1 : b1 < 256 := hb b1 (by simp)
    have ne2 : b64Char (b1 % 16 * 4) ≠ '=' := b64Char_ne_pad _ (by omega)
    have e0 := b64Value_b64Char (b0 / 4) (by omega)
    have e1 := b64Value_b64Char (b0 % 4 * 16 + b1 / 16) (by omega)
    have e2 := b64Value_b64Char (b1 % 16 * 4) (by omega)
    simp [b64EncodeBytes, atobBytes, ne2, e0, e1, e2]
    omega
  | case4 b0 b1 b2 rest ih =>
    have h0 : b0 < 256 := hb b0 (by simp)
    have h1 : b1 < 256 := hb b1 (by simp)
    have h2 : b2 < 256 := hb b2 (by simp)
    have hrest : ∀ b ∈ rest, b < 256 := fun b hbm => hb b (by simp [hbm])
    have ne2 : b64Char (b1 % 16 * 4 + b2 / 64) ≠ '=' := b64Char_ne_pad _ (by omega)
    have ne3 : b64Char (b2 % 64) ≠ '=' := b64Char_ne_pad _ (by omega)
    have e0 := b64Value_b64Char (b0 / 4) (by omega)
    have e1 := b64Value_b64Char (b0 % 4 * 16 + b1 / 16) (by omega)
    have e2 := b64Value_b64Char (b1 % 16 * 4 + b2 / 64) (by omega)
    have e3 := b64Value_b64Char (b2 % 64) (by omega)
    simp [b64EncodeBytes, atobBytes, ne2, ne3, e0, e1, e2, e3, ih hrest]
    omega

/-- A list without the separator is returned whole by the split. -/
theorem splitOnSep_of_not_mem (sep : Char) (cs : List Char) (h : sep ∉ cs) :
    splitOnSep sep cs = [cs] := by
  induction cs with
  | nil => rfl
  | cons c rest ih =>
    have hc : ¬ (c = sep) := fun hh => h (hh ▸ List.mem_cons_self c rest)
    have hr : sep ∉ rest := fun hh => h (List.mem_cons_of_mem _ hh)
    simp [splitOnSep, hc, ih hr]

/-- Splitting at the first separator occurrence peels off the prefix. -/
theorem splitOnSep_append (sep : Char) (meta payload : List Char) (h : sep ∉ meta) :
    splitOnSep sep (meta ++ sep :: payload) = meta :: splitOnSep sep payload := by
  induction meta with
  | nil => simp [splitOnSep]
  | cons c rest ih =>
    have hc : ¬ (c = sep) := fun hh => h (hh ▸ List.mem_cons_self c rest)
    have hr : sep ∉ rest := fun hh => h (List.mem_cons_of_mem _ hh)
    simp [splitOnSep, hc, ih hr]

/-! ## Theorems -/

/-- C10: every panel instance is created with auto-sync enabled — the
constructor's `autoSync` parameter defaults to `true`, `createOrShow`
omits the argument and `createOrShowWithCurrentFile` passes `true` — and
the focus-tracking listeners of such a panel are active: a focus event
runs the passive sync rather than the auto-sync-off early return. -/
theorem panels_start_with_autoSync_on :
    createOrShowPanel.autoSyncEnabled = true ∧
    createOrShowWithCurrentFilePanel.autoSyncEnabled = true ∧
    panelCtor.autoSyncEnabled = true ∧
    (∀ host : Host, handleEvent host createOrShowPanel .tabChange =
      syncStep host createOrShowPanel) ∧
    (∀ host : Host, handleEvent host createOrShowWithCurrentFilePanel .tabGroupChange =
      syncStep host createOrShowWithCurrentFilePanel) := by
  refine ⟨rfl, rfl, rfl, fun host => ?_, fun host => ?_⟩ <;> rfl

/-- C7: the `exportFile` handler's default save location agrees with the
spec's description for all inputs — directory of the current source
document when one exists, else the first workspace folder's root, else
the bare default name — and in the concrete scenario (fileType `gif`, no
viewer-supplied name, no current document, one workspace folder) it is
`<workspaceRoot>/export.gif`. -/
theorem exportDefault_location :
    (∀ (currentDocument : Option Document) (workspaceFolders : List Uri)
      (fileType : String) (fileName : Option String),
      exportDefaultUri currentDocument workspaceFolders fileType fileName =
        exportDefaultUriOfSpec currentDocument workspaceFolders fileType fileName) ∧
    exportDefaultUri none ["/ws"] "gif" none = "/ws/export.gif" := by
  refine ⟨fun cd ws ft fn => ?_, by decide⟩
  cases cd <;> cases ws <;> rfl

/-- C6: resolving a handle from a tab input checks `uri`, then
`modified`, then `original`, then `notebookUri`, returning the first
field present, and returns `none` exactly when the input is absent or all
four fields are unset. -/
theorem tabInput_role_precedence :
    (∀ (t : TabInput) (u : Uri), t.uri = some u →
      getUriFromTabInput (some t) = some u) ∧
    (∀ (t : TabInput) (u : Uri), t.uri = none → t.modified = some u →
      getUriFromTabInput (some t) = some u) ∧
    (∀ (t : TabInput) (u : Uri), t.uri = none → t.modified = none → t.original = some u →
      getUriFromTabInput (some t) = some u) ∧
    (∀ (t : TabInput) (u : Uri), t.uri = none → t.modified = none → t.original = none →
      t.notebookUri = some u → getUriFromTabInput (some t) = some u) ∧
    (∀ i : Option TabInput, getUriFromTabInput i = none ↔
      i = none ∨ ∃ t, i = some t ∧ t.uri = none ∧ t.modified = none ∧
        t.original = none ∧ t.notebookUri = none) := by
  refine ⟨?_, ?_, ?_, ?_, ?_⟩
  · intro t u h; simp [getUriFromTabInput, h]
  · intro t u h1 h2; simp [getUriFromTabInput, h1, h2]
  · intro t u h1 h2 h3; simp [getUriFromTabInput, h1, h2, h3]
  · intro t u h1 h2 h3 h4; simp [getUriFromTabInput, h1, h2, h3, h4]
  · intro i
    cases i with
    | none => simp [getUriFromTabInput]
    | some t =>
      obtain ⟨u, m, o, nb⟩ := t
      cases u <;> cases m <;> cases o <;> cases nb <;> simp [getUriFromTabInput]

/-- Witness for the tab-input precedence theorem: a diff tab exposing
only the `modified` side resolves to it. -/
theorem tabInput_role_precedence_witness :
    getUriFromTabInput (some ⟨none, some "/d.svg", none, none⟩) = some "/d.svg" :=
  tabInput_role_precedence.2.1 ⟨none, some "/d.svg", none, none⟩ "/d.svg" rfl rfl

/-- C8: a `loadFile` dispatch issued while the gate is unresolved is not
delivered but suspended; the `ready` message, with the resolver still
present, delivers every suspended dispatch in order exactly once (the
pending queue is emptied) and clears the resolver, so a later `ready` is
a no-op; a dispatch issued after resolution is delivered immediately. The
concrete trace from the fresh gate delivers a buffered message exactly
once when `ready` fires. -/
theorem webviewReady_gate (g : GateState) (m : LoadMsg) :
    (g.ready = false → (gateDispatch g m).delivered = g.delivered ∧
      (gateDispatch g m).pending = g.pending ++ [m]) ∧
    (g.resolverPresent = true → (gateReadyMsg g).delivered = g.delivered ++ g.pending ∧
      (gateReadyMsg g).pending = [] ∧ (gateReadyMsg g).resolverPresent = false) ∧
    (g.resolverPresent = false → gateReadyMsg g = g) ∧
    (g.ready = true → (gateDispatch g m).delivered = g.delivered ++ [m] ∧
      (gateDispatch g m).pending = g.pending) ∧
    (gateReadyMsg (gateDispatch initialGate m)).delivered = [m] ∧
    gateReadyMsg (gateReadyMsg (gateDispatch initialGate m)) =
      gateReadyMsg (gateDispatch initialGate m) := by
  refine ⟨fun h => ?_, fun h => ?_, fun h => ?_, fun h => ?_, ?_, ?_⟩
  · simp [gateDispatch, h]
  · simp [gateReadyMsg, h]
  · simp [gateReadyMsg, h]
  · simp [gateDispatch, h]
  · simp [gateDispatch, gateReadyMsg, initialGate]
  · simp [gateDispatch, gateReadyMsg, initialGate]

/-- Witness for the readiness-gate theorem: from the fresh gate, a
dispatch is suspended, not delivered. -/
theorem webviewReady_gate_witness :
    (gateDispatch initialGate ⟨"a.svg", "x"⟩).delivered = [] ∧
    (gateDispatch initialGate ⟨"a.svg", "x"⟩).pending = [⟨"a.svg", "x"⟩] := by
  have h := (webviewReady_gate initialGate ⟨"a.svg", "x"⟩).1 rfl
  exact ⟨h.1, h.2⟩

/-- C3: with auto-sync off, every focus or document event handler is a
no-op — no state change, no dispatch, no notice — and hence no sequence
of events produces any load dispatch or state change. -/
theorem autoSync_off_inert (s : PanelState) (hoff : s.autoSyncEnabled = false) :
    (∀ (host : Host) (e : FocusEvent), handleEvent host s e = noopResult s) ∧
    (∀ evs : List (Host × FocusEvent), runEvents evs s = (s, [])) := by
  have hstep : ∀ (host : Host) (e : FocusEvent), handleEvent host s e = noopResult s := by
    intro host e
    cases e <;> simp [handleEvent, hoff]
  refine ⟨hstep, fun evs => ?_⟩
  induction evs with
  | nil => rfl
  | cons he rest ih =>
    obtain ⟨h, e⟩ := he
    simp [runEvents, hstep h e, noopResult, ih]

/-- The focused editable document yields no supported candidate: there is
no active editor, or its document's path is unsupported. -/
def editorYieldsNone (host : Host) : Prop :=
  ∀ ed, host.activeTextEditor = some ed → isSupportedPath ed.uri = false

/-- The focused tab yields no supported candidate: its input resolves to
no URI, or to an unsupported one. -/
def tabYieldsNone (host : Host) : Prop :=
  ∀ u, getUriFromTabInput host.activeTabInput = some u → isSupportedPath u = false

/-- The inner fallback scan is the first supported URI among the tab
inputs of one group, in tab order. -/
theorem scanTabs_eq_find (ts : List (Option TabInput)) :
    scanTabs ts = (ts.filterMap getUriFromTabInput).find? (fun u => isSupportedPath u) := by
  induction ts with
  | nil => rfl
  | cons t rest ih =>
    cases h : getUriFromTabInput t with
    | none => simp [scanTabs, h, List.filterMap_cons, ih]
    | some u =>
      by_cases hs : isSupportedPath u = true
      · simp [scanTabs, h, hs, List.filterMap_cons, List.find?_cons_of_pos, hs]
      · simp only [scanTabs, h, List.filterMap_cons]
        rw [List.find?_cons_of_neg _ (by simpa using hs), if_neg hs, ih]

/-- The fallback scan of `_getActiveResourceUri` is the first supported
URI among all tab inputs, in group order then tab order. -/
theorem scanGroups_eq_find (gs : List (List (Option TabInput))) :
    scanGroups gs =
      (gs.flatten.filterMap getUriFromTabInput).find? (fun u => isSupportedPath u) := by
  induction gs with
  | nil => rfl
  | cons g rest ih =>
    rw [List.flatten_cons, List.filterMap_append, List.find?_append, ← ih, ← scanTabs_eq_find]
    cases h : scanTabs g with
    | none => simp [scanGroups, h, Option.or]
    | some u => simp [scanGroups, h, Option.or]

/-- A passive sync in which neither the focused editor nor the focused
tab yields a supported candidate changes nothing and emits nothing: it
never falls back to the all-tabs scan. -/
theorem syncStep_noop_of_unsupported (host : Host) (s : PanelState)
    (hed : editorYieldsNone host) (htab : tabYieldsNone host) :
    syncStep host s = noopResult s := by
  have htb : syncTabBranch host s = noopResult s := by
    unfold syncTabBranch
    cases hTab : getUriFromTabInput host.activeTabInput with
    | none => rfl
    | some u => simp [htab u hTab]
  cases hEd : host.activeTextEditor with
  | none => simpa [syncStep, hEd] using htb
  | some ed => simpa [syncStep, hEd, hed ed hEd] using htb

/-- C4: candidate selection precedence — (a) a supported focused
editor document always wins; (b) with no supported focused document, a
supported focused-tab URI wins; (c) with neither, the explicit-open
resolver falls back to the first supported URI over all tab inputs in
group order then tab order, while (d) a passive focus tick with neither
candidate does nothing at all, never reaching the fallback scan. -/
theorem candidate_precedence :
    (∀ (host : Host) (ed : Document), host.activeTextEditor = some ed →
      isSupportedPath ed.uri = true → getActiveResourceUri host = some ed.uri) ∧
    (∀ (host : Host) (u : Uri), editorYieldsNone host →
      getUriFromTabInput host.activeTabInput = some u → isSupportedPath u = true →
      getActiveResourceUri host = some u) ∧
    (∀ host : Host, editorYieldsNone host → tabYieldsNone host →
      getActiveResourceUri host =
        (host.tabGroups.flatten.filterMap getUriFromTabInput).find?
          (fun u => isSupportedPath u)) ∧
    (∀ (host : Host) (s : PanelState), editorYieldsNone host → tabYieldsNone host →
      syncStep host s = noopResult s) := by
  have hTail : ∀ host : Host, editorYieldsNone host → tabYieldsNone host →
      (match getUriFromTabInput host.activeTabInput with
        | some u => if isSupportedPath u then some u else scanGroups host.tabGroups
        | none => scanGroups host.tabGroups) = scanGroups host.tabGroups := by
    intro host _ htab
    cases hTab : getUriFromTabInput host.activeTabInput with
    | none => rfl
    | some u => simp [htab u hTab]
  refine ⟨?_, ?_, ?_, fun host s hed htab => syncStep_noop_of_unsupported host s hed htab⟩
  · intro host ed hEd hs
    simp [getActiveResourceUri, hEd, hs]
  · intro host u hed hTab hs
    cases hEd : host.activeTextEditor with
    | none => simp [getActiveResourceUri, hEd, hTab, hs]
    | some ed => simp [getActiveResourceUri, hEd, hed ed hEd, hTab, hs]
  · intro host hed htab
    rw [← scanGroups_eq_find]
    cases hEd : host.activeTextEditor with
    | none => simpa [getActiveResourceUri, hEd] using hTail host hed htab
    | some ed => simpa [getActiveResourceUri, hEd, hed ed hEd] using hTail host hed htab

/-- Witness for the precedence theorem: with a supported focused document
and a differing supported focused-tab URI both present, the focused
document's handle is chosen. -/
theorem candidate_precedence_witness :
    getActiveResourceUri
      ⟨some ⟨"/w/doc.json", "data"⟩, some ⟨some "/w/tab.svg", none, none, none⟩,
        [[some ⟨some "/w/other.png", none, none, none⟩]],
        fun _ => none, fun _ => none⟩ = some "/w/doc.json" :=
  candidate_precedence.1 _ ⟨"/w/doc.json", "data"⟩ rfl (by decide)

/-- A host surface whose focused document is an unsupported `.txt` file
while the focused tab wraps a supported `.json` file. -/
def hostC5 : Host :=
  ⟨some ⟨"/a.txt", ""⟩, some ⟨some "/b.json", none, none, none⟩, [],
    fun _ => none, fun u => if u = "/b.json" then some ⟨"/b.json", "data"⟩ else none⟩

/-- A panel currently displaying `/c.svg`. -/
def sC5 : PanelState := ⟨true, none, some "/c.svg"⟩

/-- Counterexample to C5: a passive focus event whose focused document's
extension is not in {svg, json, lot, png} can still change
DisplayedResource — when the focused tab resolves to a supported file,
the sync loads it. Here the focused document is `/a.txt`, the displayed
resource was `/c.svg`, and after the editor-change tick it is
`/b.json`. -/
theorem focus_unsupported_doc_changes_display :
    isSupportedPath "/a.txt" = false ∧
    sC5.currentResourceUri = some "/c.svg" ∧
    (handleEvent hostC5 sC5 (.editorChange (some ⟨"/a.txt", ""⟩))).state.currentResourceUri =
      some "/b.json" ∧
    (handleEvent hostC5 sC5 (.editorChange (some ⟨"/a.txt", ""⟩))).dispatches ≠ [] := by
  decide

/-- C5 (amended): a passive focus tick in which neither the focused
document nor the focused tab yields a supported candidate handle leaves
the panel state (in particular DisplayedResource) unchanged and posts
nothing, for the sync itself and for each focus listener; but when the
focused document is unsupported while the focused tab is supported, the
tick does load the tab's file (see the counterexample). -/
theorem passive_tick_keeps_display (host : Host) (s : PanelState)
    (hed : editorYieldsNone host) (htab : tabYieldsNone host) :
    syncStep host s = noopResult s ∧
    handleEvent host s .tabChange = noopResult s ∧
    handleEvent host s .tabGroupChange = noopResult s ∧
    handleEvent host s (.editorChange host.activeTextEditor) = noopResult s := by
  have hs := syncStep_noop_of_unsupported host s hed htab
  refine ⟨hs, ?_, ?_, ?_⟩
  · by_cases h : s.autoSyncEnabled <;> simp [handleEvent, h, hs]
  · by_cases h : s.autoSyncEnabled <;> simp [handleEvent, h, hs]
  · cases hEd : host.activeTextEditor with
    | none => by_cases h : s.autoSyncEnabled <;> simp [handleEvent, h, hs]
    | some ed =>
      by_cases h : s.autoSyncEnabled <;>
        simp [handleEvent, h, hs, isSupportedFile, hed ed hEd]

/-- Witness for the amended C5 theorem: with an unsupported focused
document and an unsupported focused-tab resource, a tab-change tick is a
no-op. -/
theorem passive_tick_keeps_display_witness :
    handleEvent ⟨some ⟨"/a.txt", ""⟩, some ⟨some "/e.md", none, none, none⟩, [],
        fun _ => none, fun _ => none⟩ ⟨true, none, some "/c.svg"⟩ .tabChange =
      noopResult ⟨true, none, some "/c.svg"⟩ :=
  (passive_tick_keeps_display _ _
    (fun _ h => by cases h; decide)
    (fun _ h => by cases h; decide)).2.1

/-- The tab-derived candidate of the passive sync: the focused tab's
resolved URI when it is supported. -/
def tabCandidate (host : Host) : Option Uri :=
  match getUriFromTabInput host.activeTabInput with
  | some u => if isSupportedPath u then some u else none
  | none => none

/-- The candidate handle a passive sync considers: the focused editor's
document URI when supported, else the tab candidate. -/
def syncCandidate (host : Host) : Option Uri :=
  match host.activeTextEditor with
  | some ed => if isSupportedPath ed.uri then some ed.uri else tabCandidate host
  | none => tabCandidate host

/-- `_loadDocument` always leaves the panel state pointing at the loaded
document, whether or not the binary read succeeded: the two assignments
happen first. -/
theorem loadDocumentStep_state (host : Host) (s : PanelState) (doc : Document) :
    (loadDocumentStep host s doc).state =
      { s with currentDocument := some doc, currentResourceUri := some doc.uri } := by
  simp only [loadDocumentStep]
  split <;> split <;> first | rfl | (split <;> rfl)

/-- One `_loadDocument` call posts at most one message. -/
theorem loadDocumentStep_dispatches (host : Host) (s : PanelState) (doc : Document) :
    (loadDocumentStep host s doc).dispatches.length ≤ 1 := by
  simp only [loadDocumentStep]
  split <;> split <;> first | simp | (split <;> simp)

/-- One `_loadUri` call posts at most one message. -/
theorem loadUriStep_dispatches (host : Host) (s : PanelState) (u : Uri) :
    (loadUriStep host s u).dispatches.length ≤ 1 := by
  simp only [loadUriStep]
  split
  · split
    · simp
    · exact loadDocumentStep_dispatches ..
  · split <;> simp

/-- One `_loadCurrentFile` call posts at most one message. -/
theorem loadCurrentFileStep_dispatches (host : Host) (s : PanelState)
    (ru : Option Uri) (b : Bool) :
    (loadCurrentFileStep host s ru b).dispatches.length ≤ 1 := by
  simp only [loadCurrentFileStep]
  split
  · simp
  · split
    · simp
    · split
      · split
        · split
          · simp
          · exact loadDocumentStep_dispatches ..
        · exact loadUriStep_dispatches ..
      · exact loadUriStep_dispatches ..

/-- One passive sync posts at most one message. -/
theorem syncStep_dispatches (host : Host) (s : PanelState) :
    (syncStep host s).dispatches.length ≤ 1 := by
  have htb : (syncTabBranch host s).dispatches.length ≤ 1 := by
    unfold syncTabBranch
    split
    · split
      · split
        · simp [noopResult]
        · exact loadCurrentFileStep_dispatches ..
      · simp [noopResult]
    · simp [noopResult]
  unfold syncStep
  split
  · split
    · split
      · simp [noopResult]
      · exact loadCurrentFileStep_dispatches ..
    · exact htb
  · exact htb

/-- When `_loadUri` posted a message, the displayed resource is the
loaded URI (assuming the host opens a document at the URI it was asked
for). -/
theorem loadUriStep_state_of_dispatch (host : Host) (s : PanelState) (u : Uri)
    (hwf : ∀ v doc, host.openTextDocument v = some doc → doc.uri = v) :
    (loadUriStep host s u).dispatches ≠ [] →
    (loadUriStep host s u).state.currentResourceUri = some u := by
  simp only [loadUriStep]
  split
  · cases hod : host.openTextDocument u with
    | none => intro h; simp at h
    | some doc =>
      intro _
      rw [loadDocumentStep_state]
      simp [hwf u doc hod]
  · cases hrf : host.readFile u with
    | none => intro h; simp at h
    | some bytes => intro _; rfl

/-- When `_loadCurrentFile` with an explicit target posted a message, the
displayed resource is that target. -/
theorem loadCurrentFileStep_state_of_dispatch (host : Host) (s : PanelState)
    (target : Uri) (b : Bool)
    (hwf : ∀ v doc, host.openTextDocument v = some doc → doc.uri = v) :
    (loadCurrentFileStep host s (some target) b).dispatches ≠ [] →
    (loadCurrentFileStep host s (some target) b).state.currentResourceUri = some target := by
  simp only [loadCurrentFileStep]
  split
  · intro h; simp at h
  · split
    · rename_i activeDoc _
      split
      · rename_i hu
        split
        · intro h; simp at h
        · intro _
          rw [loadDocumentStep_state]
          have : activeDoc.uri = target := by
            have := hu
            simp only [urisEqual] at this
            exact eq_of_beq this
          simp [this]
      · exact loadUriStep_state_of_dispatch host s target hwf
    · exact loadUriStep_state_of_dispatch host s target hwf

/-- A passive sync whose candidate is already displayed is a no-op (the
tab half). -/
theorem syncTabBranch_noop_of_current (host : Host) (s : PanelState) (u : Uri)
    (hc : tabCandidate host = some u) (he : s.currentResourceUri = some u) :
    syncTabBranch host s = noopResult s := by
  unfold syncTabBranch
  cases hTab : getUriFromTabInput host.activeTabInput with
  | none => rfl
  | some v =>
    by_cases hs1 : isSupportedPath v = true
    · have hv : v = u := by simpa [tabCandidate, hTab, hs1] using hc
      subst hv
      simp [hs1, he]
    · simp [hs1]

/-- A passive sync whose candidate is already displayed is a no-op. -/
theorem syncStep_noop_of_current (host : Host) (s : PanelState) (u : Uri)
    (hc : syncCandidate host = some u) (he : s.currentResourceUri = some u) :
    syncStep host s = noopResult s := by
  unfold syncStep
  cases hEd : host.activeTextEditor with
  | none =>
    exact syncTabBranch_noop_of_current host s u (by simpa [syncCandidate, hEd] using hc) he
  | some ed =>
    by_cases hs1 : isSupportedPath ed.uri = true
    · have hv : ed.uri = u := by simpa [syncCandidate, hEd, hs1] using hc
      subst hv
      simp [hs1, he]
    · have hc' : tabCandidate host = some u := by simpa [syncCandidate, hEd, hs1] using hc
      simpa [hs1] using syncTabBranch_noop_of_current host s u hc' he

/-- When a passive sync posted a message, its candidate exists and is the
new displayed resource. -/
theorem syncStep_candidate_of_dispatch (host : Host) (s : PanelState)
    (hwf : ∀ v doc, host.openTextDocument v = some doc → doc.uri = v) :
    (syncStep host s).dispatches ≠ [] →
    ∃ u, syncCandidate host = some u ∧
      (syncStep host s).state.currentResourceUri = some u := by
  have htb : (syncTabBranch host s).dispatches ≠ [] →
      ∃ u, tabCandidate host = some u ∧
        (syncTabBranch host s).state.currentResourceUri = some u := by
    unfold syncTabBranch
    cases hTab : getUriFromTabInput host.activeTabInput with
    | none => intro h; simp [noopResult] at h
    | some v =>
      by_cases hs1 : isSupportedPath v = true
      · by_cases he : s.currentResourceUri = some v
        · simp [hs1, he, noopResult]
        · intro h
          refine ⟨v, by simp [tabCandidate, hTab, hs1], ?_⟩
          have h' : (loadCurrentFileStep host s (some v) true).dispatches ≠ [] := by
            simpa [hs1, he] using h
          simpa [hs1, he] using loadCurrentFileStep_state_of_dispatch host s v true hwf h'
      · simp [hs1, noopResult]
  unfold syncStep
  cases hEd : host.activeTextEditor with
  | none =>
    intro h
    obtain ⟨u, hc, hst⟩ := htb h
    exact ⟨u, by simpa [syncCandidate, hEd] using hc, hst⟩
  | some ed =>
    by_cases hs1 : isSupportedPath ed.uri = true
    · by_cases he : s.currentResourceUri = some ed.uri
      · simp [hs1, he, noopResult]
      · intro h
        refine ⟨ed.uri, by simp [syncCandidate, hEd, hs1], ?_⟩
        have h' : (loadCurrentFileStep host s (some ed.uri) true).dispatches ≠ [] := by
          simpa [hs1, he] using h
        simpa [hs1, he] using
          loadCurrentFileStep_state_of_dispatch host s ed.uri true hwf h'
    · intro h
      obtain ⟨u, hc, hst⟩ := htb (by simpa [hs1] using h)
      exact ⟨u, by simp [syncCandidate, hEd, hs1, hc], by simpa [hs1] using hst⟩

/-- The document and state of the C2 counterexample: the panel already
displays `/b.json` and that same file is the focused editor document. -/
def docC2 : Document := ⟨"/b.json", "txt"⟩

/-- Host surface for the C2 counterexample. -/
def hostC2 : Host := ⟨some docC2, none, [], fun _ => none, fun _ => none⟩

/-- Panel state for the C2 counterexample. -/
def sC2 : PanelState := ⟨true, some docC2, some "/b.json"⟩

/-- Counterexample to C2: an explicit-open resolution
(`_loadCurrentFile`, as invoked by `createOrShowWithCurrentFile` on an
existing panel) finds the candidate `/b.json`, whose canonical form
equals the recorded DisplayedResource, and still issues a load dispatch —
the idempotence check exists only in the passive sync. Hence two
explicit resolutions in a row with an unchanged candidate issue two
dispatches, not one. -/
theorem explicit_resolve_redispatches :
    sC2.currentResourceUri = some "/b.json" ∧
    getActiveResourceUri hostC2 = some "/b.json" ∧
    (loadCurrentFileStep hostC2 sC2 none false).dispatches = [⟨"b.json", "txt"⟩] ∧
    (loadCurrentFileStep hostC2
        (loadCurrentFileStep hostC2 sC2 none false).state none false).dispatches =
      [⟨"b.json", "txt"⟩] := by
  decide

/-- C2 (amended): idempotence holds for the passive resolver
(`_syncActiveResourceIfSupported`): when the candidate it finds equals
the recorded DisplayedResource it issues no dispatch, and whenever a
passive sync issues a dispatch it issues exactly one and an immediately
repeated passive sync over the unchanged host issues none — so two
passive resolutions in a row dispatch exactly once in total. Explicit
`_loadCurrentFile` resolutions re-dispatch even for an unchanged
candidate (see the counterexample). -/
theorem sync_idempotent (host : Host) (s : PanelState)
    (hwf : ∀ v doc, host.openTextDocument v = some doc → doc.uri = v) :
    (∀ u, syncCandidate host = some u → s.currentResourceUri = some u →
      syncStep host s = noopResult s) ∧
    ((syncStep host s).dispatches ≠ [] →
      (syncStep host s).dispatches.length = 1 ∧
      (syncStep host (syncStep host s).state).dispatches = []) := by
  refine ⟨fun u hc he => syncStep_noop_of_current host s u hc he, fun h => ?_⟩
  obtain ⟨u, hc, hst⟩ := syncStep_candidate_of_dispatch host s hwf h
  constructor
  · have hle := syncStep_dispatches host s
    have hpos : 0 < (syncStep host s).dispatches.length := List.length_pos.mpr h
    omega
  · rw [syncStep_noop_of_current host _ u hc hst]; rfl

/-- Witness for the amended C2 theorem: a second passive sync after a
successful load of the focused `.svg` editor document dispatches
nothing. -/
theorem sync_idempotent_witness :
    syncStep ⟨some ⟨"/w/a.svg", "<svg/>"⟩, none, [], fun _ => none, fun _ => none⟩
        ⟨true, some ⟨"/w/a.svg", "<svg/>"⟩, some "/w/a.svg"⟩ =
      noopResult ⟨true, some ⟨"/w/a.svg", "<svg/>"⟩, some "/w/a.svg"⟩ :=
  (sync_idempotent ⟨some ⟨"/w/a.svg", "<svg/>"⟩, none, [], fun _ => none, fun _ => none⟩
      ⟨true, some ⟨"/w/a.svg", "<svg/>"⟩, some "/w/a.svg"⟩
      (fun _ _ h => by simp at h)).1
    "/w/a.svg" (by decide) rfl

/-- `_loadDocument` never shows a notice, and when its binary read throws
it has posted nothing. -/
theorem loadDocumentStep_failed (host : Host) (s : PanelState) (doc : Document) :
    (loadDocumentStep host s doc).notices = [] ∧
    ((loadDocumentStep host s doc).readFailed = true →
      (loadDocumentStep host s doc).dispatches = []) := by
  simp only [loadDocumentStep]
  split <;> split <;> first | simp | (split <;> simp)

/-- `_loadDocument` on a document whose name has a textual extension
cannot throw: it uses the in-memory text. -/
theorem loadDocumentStep_text_ok (host : Host) (s : PanelState) (doc : Document)
    (hext : extOf (lastPathComponent doc.uri) = some "json" ∨
      extOf (lastPathComponent doc.uri) = some "lot" ∨
      extOf (lastPathComponent doc.uri) = some "svg") :
    (loadDocumentStep host s doc).readFailed = false := by
  have hne : ¬ (lastPathComponent doc.uri = "") := by
    intro h0
    rw [h0] at hext
    have h1 : extOf "" = some "" := by decide
    rw [h1] at hext
    rcases hext with h | h | h <;> exact absurd (Option.some.inj h) (by decide)
  simp only [loadDocumentStep, if_neg hne, if_pos hext]

/-- When `_loadUri` throws on a host read, the throw happened before any
state assignment: the state is unchanged and no notice is shown. -/
theorem loadUriStep_failed (host : Host) (s : PanelState) (u : Uri)
    (hwf : ∀ v d, host.openTextDocument v = some d → d.uri = v) :
    (loadUriStep host s u).readFailed = true →
    (loadUriStep host s u).state = s ∧ (loadUriStep host s u).notices = [] := by
  simp only [loadUriStep]
  split
  case isTrue hext =>
    cases hod : host.openTextDocument u with
    | none => intro _; exact ⟨rfl, rfl⟩
    | some d =>
      intro hf
      exfalso
      have hdu : d.uri = u := hwf u d hod
      have := loadDocumentStep_text_ok host s d (by rw [hdu]; exact hext)
      rw [this] at hf
      exact Bool.false_ne_true hf
  case isFalse hext =>
    cases hrf : host.readFile u with
    | none => intro _; exact ⟨rfl, rfl⟩
    | some bytes => intro hf; simp at hf

/-- Panel state for the C1 counterexample: the viewer displays
`/old.svg`. -/
def sC1 : PanelState := ⟨true, none, some "/old.svg"⟩

/-- Document for the C1 counterexample: a PNG whose bytes cannot be
read. -/
def docC1 : Document := ⟨"/new.png", ""⟩

/-- Host for the C1 counterexample: every storage read fails. -/
def hostC1 : Host := ⟨none, none, [], fun _ => none, fun _ => none⟩

/-- Counterexample to C1: `_loadDocument` (reached, e.g., when a
supported PNG document gains editor focus) assigns
`_currentResourceUri := candidate` at entry, before the storage read and
before any dispatch. When the read of `/new.png` fails, the run ends with
`readFailed`, no load-failure notice is surfaced by the extension (the
rejection is uncaught), and DisplayedResource has already moved from
`/old.svg` to `/new.png` instead of retaining its previous value. -/
theorem read_failure_marks_displayed :
    (loadDocumentStep hostC1 sC1 docC1).readFailed = true ∧
    (loadDocumentStep hostC1 sC1 docC1).notices = [] ∧
    (loadDocumentStep hostC1 sC1 docC1).dispatches = [] ∧
    (loadDocumentStep hostC1 sC1 docC1).state.currentResourceUri = some "/new.png" ∧
    sC1.currentResourceUri = some "/old.svg" := by
  decide

/-- C1 (amended): the code updates the displayed-resource record before
the dispatch, not after it. `_loadDocument` sets `_currentDocument` and
`_currentResourceUri` to the candidate unconditionally at entry, so a
binary read failure there leaves DisplayedResource already pointing at
the new candidate, with no notice and no dispatch; in `_loadUri` a host
read failure occurs before the state assignments, so there
DisplayedResource is unchanged — and no load-failure notice is surfaced
in either case. -/
theorem display_update_precedes_dispatch (host : Host) (s : PanelState)
    (doc : Document) (u : Uri)
    (hwf : ∀ v d, host.openTextDocument v = some d → d.uri = v) :
    ((loadDocumentStep host s doc).state.currentDocument = some doc ∧
      (loadDocumentStep host s doc).state.currentResourceUri = some doc.uri) ∧
    (loadDocumentStep host s doc).notices = [] ∧
    ((loadDocumentStep host s doc).readFailed = true →
      (loadDocumentStep host s doc).dispatches = []) ∧
    ((loadUriStep host s u).readFailed = true →
      (loadUriStep host s u).state = s ∧ (loadUriStep host s u).notices = []) := by
  refine ⟨?_, (loadDocumentStep_failed host s doc).1,
    (loadDocumentStep_failed host s doc).2, loadUriStep_failed host s u hwf⟩
  rw [loadDocumentStep_state]
  exact ⟨rfl, rfl⟩

/-- Witness for the amended C1 theorem: the failed PNG load has moved the
displayed resource to the candidate, and a failed `_loadUri` read leaves
the state untouched. -/
theorem display_update_precedes_dispatch_witness :
    ((loadDocumentStep hostC1 sC1 docC1).state.currentResourceUri = some "/new.png") ∧
    ((loadUriStep hostC1 sC1 "/gone.png").state = sC1) :=
  ⟨(display_update_precedes_dispatch hostC1 sC1 docC1 "/gone.png"
      (fun _ _ h => by simp [hostC1] at h)).1.2,
    ((display_update_precedes_dispatch hostC1 sC1 docC1 "/gone.png"
      (fun _ _ h => by simp [hostC1] at h)).2.2.2 (by decide)).1⟩

/-- C9: for every byte sequence read from storage for a PNG resource,
building the extension's `data:image/png;base64,<payload>` data URL and
decoding it with the bridge's `dataUrlToBlob` (split at commas, take the
payload, `atob` it and read the character codes) reproduces the original
bytes exactly. -/
theorem png_dataUrl_roundtrip (fileData : List Nat) (hb : ∀ b ∈ fileData, b < 256) :
    dataUrlToBlob (pngDataUrl fileData).toList = fileData := by
  have hsplit : (pngDataUrl fileData).toList =
      "data:image/png;base64".toList ++ ',' :: b64EncodeBytes fileData := by
    show pngDataUrlChars fileData = _
    unfold pngDataUrlChars
    rw [show "data:image/png;base64,".toList =
      "data:image/png;base64".toList ++ [','] from by decide, List.append_assoc]
    rfl
  show atobBytes ((splitComma (pngDataUrl fileData).toList).getD 1 []) = fileData
  rw [hsplit]
  unfold splitComma
  rw [splitOnSep_append ',' _ _ (by decide),
    splitOnSep_of_not_mem ',' _ (comma_not_mem_encode fileData)]
  exact atobBytes_encode fileData hb

/-- Witness for the PNG round-trip theorem: the PNG magic bytes survive
the encode–decode cycle. -/
theorem png_dataUrl_roundtrip_witness :
    dataUrlToBlob (pngDataUrl [137, 80, 78, 71, 13, 10, 26, 10]).toList =
      [137, 80, 78, 71, 13, 10, 26, 10] :=
  png_dataUrl_roundtrip [137, 80, 78, 71, 13, 10, 26, 10] (by decide)

/-- Witness for the auto-sync-off theorem: a panel with the flag off
ignores a tab change and an editor change. -/
theorem autoSync_off_inert_witness :
    runEvents
      [(⟨some ⟨"/w/a.svg", "s"⟩, none, [], fun _ => none, fun _ => none⟩, .tabChange),
       (⟨some ⟨"/w/a.svg", "s"⟩, none, [], fun _ => none, fun _ => none⟩,
        .editorChange (some ⟨"/w/a.svg", "s"⟩))]
      (panelCtor false) = (panelCtor false, []) :=
  (autoSync_off_inert (panelCtor false) rfl).2 _

end ThorVG
